import Mathlib

/-!
Shallow embedding of the HelixerPrep annotation core (annotations.py):
the feature stacker, the transcript status machine, the piece orderer
with its up/downstream link resolution, and the handler bind/copy/link
protocol.  Definitions mirror the Python source; the few record shapes
that live in the external ORM module (absent from the sources) are
modelled from the specification and marked as such in their doc comments.
-/

namespace Helixer

/-- Decidable equality for Except results, so concrete evaluations of the
embedded operations can be settled by decide. -/
instance {e a : Type} [DecidableEq e] [DecidableEq a] : DecidableEq (Except e a) :=
  fun x y =>
    match x, y with
    | .ok u, .ok v =>
        if h : u = v then isTrue (by rw [h]) else isFalse (by intro hh; cases hh; exact h rfl)
    | .error u, .error v =>
        if h : u = v then isTrue (by rw [h]) else isFalse (by intro hh; cases hh; exact h rfl)
    | .ok _, .error _ => isFalse (by intro hh; cases hh)
    | .error _, .ok _ => isFalse (by intro hh; cases hh)

/-- Feature type enum: the five keys of the status decoder
(type constants TRANSCRIBED, CODING, INTRON, TRANS_INTRON, ERROR
referenced from annotations.py; the enum module itself is external). -/
inductive FType where
  | TRANSCRIBED
  | CODING
  | INTRON
  | TRANS_INTRON
  | ERROR
deriving DecidableEq, Repr

/-- Bearing enum: START, OPEN_STATUS, CLOSE_STATUS, END, POINT
(constants referenced from annotations.py; the enum module is external). -/
inductive Bearing where
  | START
  | OPEN_STATUS
  | CLOSE_STATUS
  | END
  | POINT
deriving DecidableEq, Repr

/-- A Feature record as consumed by the transcript interpreter:
type, bearing, position, strand, coordinates region and phase.
Modelled from the spec: the ORM record class is external; §3 lists the
attribute set (type, bearing, start and end coordinates, is_plus_strand,
coordinates region, phase). The position key is collapsed to one integer
field `pos` standing for the strand-independent coordinate tuple. -/
structure Feature where
  fid : Nat
  ftype : FType
  bearing : Bearing
  pos : Int
  is_plus_strand : Bool
  coordinates : Nat
  phase : Option Nat
deriving DecidableEq, Repr

/-- Modelled from the spec: annotations_orm.Feature.pos_cmp_key is not in
the sources; §4.3 describes it as the strand-independent position key a
feature is sorted by, so it projects the `pos` field. -/
def pos_cmp_key (f : Feature) : Int := f.pos

/-- positional_match from annotations.py: equality of position keys. -/
def positional_match (feature previous : Feature) : Bool :=
  pos_cmp_key feature == pos_cmp_key previous

/-- bearing_match from annotations.py: equality of bearing values. -/
def bearing_match (feature previous : Feature) : Bool :=
  feature.bearing == previous.bearing

/-- Loop body of TranscriptInterpBase.stack_matches: `prev` is the last
consumed element, `current` the group being accumulated; a matching next
element joins the group, a non-match emits the group and starts a new one;
the trailing group is emitted at the end. -/
def stack_go {α : Type} (matchFn : α → α → Bool) :
    α → List α → List α → List (List α)
  | _, current, [] => [current]
  | prev, current, feature :: rest =>
      if matchFn feature prev then
        stack_go matchFn feature (current ++ [feature]) rest
      else
        current :: stack_go matchFn feature [feature] rest

/-- TranscriptInterpBase.stack_matches: group consecutive features for
which matchFn holds against the previous feature; an empty input yields
no group. -/
def stack_matches {α : Type} (matchFn : α → α → Bool) : List α → List (List α)
  | [] => []
  | f :: rest => stack_go matchFn f [f] rest

/-- The fixed bearing priority table of TranscriptInterpBase.sort_by_bearing:
START 3, OPEN_STATUS 2, CLOSE_STATUS 1, END 0, POINT 4. -/
def bearing_key : Bearing → Nat
  | .START => 3
  | .OPEN_STATUS => 2
  | .CLOSE_STATUS => 1
  | .END => 0
  | .POINT => 4

/-- TranscriptInterpBase.sort_by_bearing: a stable ascending sort of the
matches by the bearing priority table (Python sorted is stable, as is
insertion sort). -/
def sort_by_bearing (matchlist : List Feature) : List Feature :=
  matchlist.insertionSort (fun a b => bearing_key a.bearing ≤ bearing_key b.bearing)

/-- TranscriptInterpBase.full_stack_matches: stack by positional match,
sort each positional stack by bearing, restack by bearing match, and emit
the resulting groups in order. -/
def full_stack_matches (features : List Feature) : List (List Feature) :=
  (stack_matches positional_match features).flatMap
    (fun ms => stack_matches bearing_match (sort_by_bearing ms))

/-- Failures of TranscriptInterpBase.sorted_features: the two structural
consistency assertions (shared coordinates region, shared strand) and the
IndexError from reading the first feature of an empty list. -/
inductive StructErr where
  | coordinatesAssert
  | strandAssert
  | indexError
deriving DecidableEq, Repr

/-- TranscriptInterpBase.sorted_features: assert one coordinates region and
one strand across the piece features, sort ascending by position key
(stable), then reverse the list when the first sorted feature lies on the
minus strand. An empty feature list passes both assertions vacuously and
then fails indexing the first sorted feature. -/
def sorted_features (features : List Feature) : Except StructErr (List Feature) :=
  match features with
  | [] => .error .indexError
  | f0 :: _ =>
      if ¬ (features.all fun f => f.coordinates == f0.coordinates) then
        .error .coordinatesAssert
      else if ¬ (features.all fun f => f.is_plus_strand == f0.is_plus_strand) then
        .error .strandAssert
      else
        let sortedF := features.insertionSort
          (fun a b => pos_cmp_key a ≤ pos_cmp_key b)
        match sortedF with
        | [] => .error .indexError
        | g0 :: _ => if ¬ g0.is_plus_strand then .ok sortedF.reverse else .ok sortedF

/-- TranscriptStatus: the transcript status machine state, initialized to
intergenic (all flags false, no phase). -/
structure TranscriptStatus where
  genic : Bool := false
  in_intron : Bool := false
  in_trans_intron : Bool := false
  in_translated_region : Bool := false
  seen_start : Bool := false
  seen_stop : Bool := false
  erroneous : Bool := false
  phase : Option Nat := none
deriving DecidableEq, Repr

namespace TranscriptStatus

def saw_tss (s : TranscriptStatus) : TranscriptStatus := { s with genic := true }

def saw_start (s : TranscriptStatus) (phase : Option Nat) : TranscriptStatus :=
  { s with seen_start := true, in_translated_region := true, phase := phase }

def exit_coding (s : TranscriptStatus) : TranscriptStatus :=
  { s with in_translated_region := false }

def saw_stop (s : TranscriptStatus) : TranscriptStatus :=
  { s with seen_stop := true, in_translated_region := false, phase := none }

def saw_tts (s : TranscriptStatus) : TranscriptStatus := { s with genic := false }

def splice_open (s : TranscriptStatus) : TranscriptStatus :=
  { s with in_intron := true }

def splice_close (s : TranscriptStatus) : TranscriptStatus :=
  { s with in_intron := false }

def trans_splice_open (s : TranscriptStatus) : TranscriptStatus :=
  { s with in_trans_intron := true }

def trans_splice_close (s : TranscriptStatus) : TranscriptStatus :=
  { s with in_trans_intron := false }

def error_open (s : TranscriptStatus) : TranscriptStatus :=
  { s with erroneous := true }

def error_close (s : TranscriptStatus) : TranscriptStatus :=
  { s with erroneous := false }

def is_utr (s : TranscriptStatus) : Bool :=
  s.genic && !(s.in_intron || s.in_translated_region || s.in_trans_intron)

def is_5p_utr (s : TranscriptStatus) : Bool :=
  s.is_utr && !(s.seen_start || s.seen_stop)

def is_3p_utr (s : TranscriptStatus) : Bool :=
  s.is_utr && s.seen_stop && s.seen_start

def is_coding (s : TranscriptStatus) : Bool :=
  s.genic && s.in_translated_region && !(s.in_intron || s.in_trans_intron)

def is_intronic (s : TranscriptStatus) : Bool := s.in_intron && s.genic

def is_trans_intronic (s : TranscriptStatus) : Bool := s.in_trans_intron && s.genic

def is_intergenic (s : TranscriptStatus) : Bool := !s.genic

end TranscriptStatus

/-- ValueError raised by TranscriptStatus.update_for_feature on a bearing
that is neither opening (START, OPEN_STATUS) nor closing (END, CLOSE_STATUS). -/
inductive StatusErr where
  | valueError
deriving DecidableEq, Repr

/-- TranscriptStatus.update_for_feature: dispatch on the feature type via
the decoder table to an opening or closing state mutator according to the
bearing; any other bearing raises ValueError. The phase keyword argument
is only consumed by the coding opening mutator (saw_start). -/
def update_for_feature (s : TranscriptStatus) (f : Feature) (ph : Option Nat) :
    Except StatusErr TranscriptStatus :=
  let dispatch := fun (onOpen onClose : TranscriptStatus) =>
    if f.bearing = .START ∨ f.bearing = .OPEN_STATUS then Except.ok onOpen
    else if f.bearing = .END ∨ f.bearing = .CLOSE_STATUS then Except.ok onClose
    else .error .valueError
  match f.ftype with
  | .TRANSCRIBED => dispatch s.saw_tss s.saw_tts
  | .CODING => dispatch (s.saw_start ph) s.exit_coding
  | .INTRON => dispatch s.splice_open s.splice_close
  | .TRANS_INTRON => dispatch s.trans_splice_open s.trans_splice_close
  | .ERROR => dispatch s.error_open s.error_close

/-- TranscriptInterpBase.update_status: fold the aligned feature group into
the status, special-casing coding START (phase 0), coding OPEN_STATUS
(phase carried by the feature) and coding END (additionally saw_stop). -/
def update_status (s : TranscriptStatus) (aligned_features : List Feature) :
    Except StatusErr TranscriptStatus :=
  aligned_features.foldlM
    (fun st f =>
      if f.ftype = .CODING ∧ f.bearing = .START then
        update_for_feature st f (some 0)
      else if f.ftype = .CODING ∧ f.bearing = .OPEN_STATUS then
        update_for_feature st f f.phase
      else if f.ftype = .CODING ∧ f.bearing = .END then
        (update_for_feature st f none).map TranscriptStatus.saw_stop
      else
        update_for_feature st f none)
    s


/-- An Upstream- or DownstreamFeature record, reduced to what the link
resolution reads: its identity and the ids of the transcribed pieces it
belongs to. Modelled from the spec: the ORM feature subclasses are
external; §3 gives the piece-to-feature many-to-many relationship. -/
structure UDFeature where
  fid : Nat
  transcribed_pieces : List Nat
deriving DecidableEq, Repr

/-- An UpDownPair record: one optional upstream feature, one optional
downstream feature, and a position key. Modelled from the spec for the
external ORM class: §3 describes the upstream and downstream feature
slots; the position key the pair is stacked by in links_list2link is not
described by the spec and is kept as an abstract integer. -/
structure UpDownPair where
  pid : Nat
  upstream : Option UDFeature
  downstream : Option UDFeature
  posKey : Int
deriving DecidableEq, Repr

/-- The state read by the piece orderer of one TranscriptInterpBase: the
session-wide lists of Upstream- and DownstreamFeature records (the two
session queries), the piece ids of the transcript, and the UpDownPair
records owned by the transcript. -/
structure LinkWorld where
  upstreams : List UDFeature
  downstreams : List UDFeature
  tpieces : List Nat
  pairs : List UpDownPair
deriving DecidableEq, Repr

/-- Failures of the piece orderer: IndecipherableLinkageError, the
assertion in get_one_piece_from_stream and in sort_pieces, Python
IndexError and AttributeError, plus fuel exhaustion of the loop model
(never reached from the theorems below). -/
inductive LinkErr where
  | indecipherableLinkage
  | assertionFailed
  | indexError
  | attrError
  | fuelOut
deriving DecidableEq, Repr

/-- TranscriptInterpBase.find_matching_links: for each candidate feature
collect the transcript pairs whose downstream (get_upstreams true) or
upstream (get_upstreams false) slot is that candidate. -/
def find_matching_links (pairs : List UpDownPair) (updown_candidates : List UDFeature)
    (get_upstreams : Bool) : List UpDownPair :=
  updown_candidates.flatMap fun cand =>
    if get_upstreams then pairs.filter (fun x => x.downstream == some cand)
    else pairs.filter (fun x => x.upstream == some cand)

/-- TranscriptInterpBase.links_list2link: stack the links by positional
match, keep the first of each stack, then return none for zero stacks, the
link for one stack, and raise IndecipherableLinkageError otherwise. -/
def links_list2link (links : List UpDownPair) : Except LinkErr (Option UpDownPair) :=
  let stacked := stack_matches (fun a b => a.posKey == b.posKey) links
  let collapsed := stacked.filterMap List.head?
  match collapsed with
  | [] => .ok none
  | [l] => .ok (some l)
  | _ => .error .indecipherableLinkage

/-- TranscriptInterpBase.get_upstream_link: take the DownstreamFeature
records of the current piece and resolve the transcript pairs whose
downstream slot carries one of them. -/
def get_upstream_link (w : LinkWorld) (current_piece : Nat) :
    Except LinkErr (Option UpDownPair) :=
  let downstreams_current := w.downstreams.filter
    (fun x => current_piece ∈ x.transcribed_pieces)
  links_list2link (find_matching_links w.pairs downstreams_current true)

/-- TranscriptInterpBase.get_downstream_link: take the UpstreamFeature
records of the current piece and resolve the transcript pairs whose
upstream slot carries one of them. -/
def get_downstream_link (w : LinkWorld) (current_piece : Nat) :
    Except LinkErr (Option UpDownPair) :=
  let upstreams_current := w.upstreams.filter
    (fun x => current_piece ∈ x.transcribed_pieces)
  links_list2link (find_matching_links w.pairs upstreams_current false)

/-- TranscriptInterpBase.get_one_piece_from_stream: of the pieces holding
the stream feature, exactly one must belong to the transcript; the
assertion fails otherwise. -/
def get_one_piece_from_stream (w : LinkWorld) (stream : UDFeature) :
    Except LinkErr Nat :=
  match stream.transcribed_pieces.filter (fun x => x ∈ w.tpieces) with
  | [m] => .ok m
  | _ => .error .assertionFailed

/-- TranscriptInterpBase.extend_by_one: append downstream, prepend upstream. -/
def extend_by_one (ordered_pieces : List Nat) (new : Nat) (downstream : Bool) :
    List Nat :=
  if downstream then ordered_pieces ++ [new] else new :: ordered_pieces

/-- One iteration of the while loop of TranscriptInterpBase.extend_to_end:
resolve the next link from the latest piece (the last one downstream, the
first one upstream); none means the loop breaks (ok none); otherwise the
piece owning the far feature of the link is the candidate, and a candidate
already in the ordered sequence raises IndecipherableLinkageError
(circular linkage). -/
def extend_step (w : LinkWorld) (downstream : Bool) (ordered_pieces : List Nat) :
    Except LinkErr (Option Nat) :=
  match (if downstream then ordered_pieces.getLast? else ordered_pieces.head?) with
  | none => .error .indexError
  | some latest =>
      match (if downstream then get_downstream_link w latest
        else get_upstream_link w latest) with
      | .error e => .error e
      | .ok none => .ok none
      | .ok (some pr) =>
          match (if downstream then pr.downstream else pr.upstream) with
          | none => .error .attrError
          | some stream =>
              match get_one_piece_from_stream w stream with
              | .error e => .error e
              | .ok nextpiece =>
                  if nextpiece ∈ ordered_pieces then .error .indecipherableLinkage
                  else .ok (some nextpiece)

/-- The while loop of TranscriptInterpBase.extend_to_end, with explicit
fuel. Every appended piece is a transcript piece that was not yet in the
ordered list, so tpieces.length + 1 fuel is never exhausted. -/
def extend_to_end (w : LinkWorld) (downstream : Bool) :
    Nat → List Nat → Except LinkErr (List Nat)
  | 0, _ => .error .fuelOut
  | fuel + 1, ordered_pieces =>
      match extend_step w downstream ordered_pieces with
      | .error e => .error e
      | .ok none => .ok ordered_pieces
      | .ok (some nextpiece) =>
          extend_to_end w downstream fuel (extend_by_one ordered_pieces nextpiece downstream)

/-- TranscriptInterpBase.sort_pieces: start from the first piece of the
transcript collection, extend downstream then upstream, and assert the
resulting set of pieces equals the transcript piece set. -/
def sort_pieces (w : LinkWorld) : Except LinkErr (List Nat) :=
  match extend_to_end w true (w.tpieces.length + 1) (w.tpieces.take 1) with
  | .error e => .error e
  | .ok ordered1 =>
      match extend_to_end w false (w.tpieces.length + 1) ordered1 with
      | .error e => .error e
      | .ok ordered =>
          if w.tpieces.all (fun p => p ∈ ordered) ∧ ordered.all (fun p => p ∈ w.tpieces)
          then .ok ordered else .error .assertionFailed

/-- The record kinds of the handler layer, mirroring the data_type
properties of the concrete handler classes. -/
inductive RecType where
  | annotatedGenome
  | sequenceInfo
  | superLocus
  | transcribed
  | transcribedPiece
  | translated
  | feature
  | upstreamFeature
  | downstreamFeature
  | upDownPair
deriving DecidableEq, Repr

/-- The isinstance check of Handler.add_data against the declared data
type: every kind is an instance of itself, and the Upstream- and
DownstreamFeature kinds are instances of Feature (their ORM classes
subclass Feature, as their handler classes subclass FeatureHandler). -/
def isinst (sub sup : RecType) : Bool :=
  sub == sup ||
    (sup == RecType.feature &&
      (sub == RecType.upstreamFeature || sub == RecType.downstreamFeature))

/-- A data record as seen by Handler.add_data: identity, kind, and whether
the handler back-pointer has been assigned. -/
structure DataRec where
  rid : Nat
  rtype : RecType
  handlerSet : Bool := false
deriving DecidableEq, Repr

/-- A handler as seen by Handler.add_data: the declared data kind and the
optionally held record. -/
structure HandlerSt where
  hkind : RecType
  data : Option DataRec := none
deriving DecidableEq, Repr

/-- AssertionError of Handler.add_data. -/
inductive BindErr where
  | assertionFailed
deriving DecidableEq, Repr

/-- Handler.add_data: assert the record is an instance of the declared
data type, store it on the handler, and point the record back at the
handler. No check involves previously held data. -/
def add_data (h : HandlerSt) (d : DataRec) : Except BindErr (HandlerSt × DataRec) :=
  if isinst d.rtype h.hkind then
    .ok ({ h with data := some { d with handlerSet := true } },
         { d with handlerSet := true })
  else .error .assertionFailed

/-- Failure modes of Handler.copy_data_attr_to_other in the modelled
fragment: the uncaught KeyError from removing a missing do_not_copy item,
and the AttributeError from reading a missing attribute. -/
inductive CopyErr where
  | keyError
  | attributeError
deriving DecidableEq, Repr

/-- Attribute names appearing on data records: the identity key, the
handler back-reference, the copyable data attributes listed by the
handler classes, and one representative underscore-prefixed private name
(such names are filtered out when copy_only is not given). -/
inductive AttrName where
  | id
  | handler
  | given_id
  | ftype
  | fstart
  | fend
  | coordinates
  | is_plus_strand
  | score
  | source
  | phase
  | privateName
deriving DecidableEq, Repr

/-- The public-name test of the default branch of copy_data_attr_to_other:
Python filters out attribute names starting with an underscore;
privateName stands for those. -/
def is_public : AttrName → Bool
  | .privateName => false
  | _ => true

/-- The do_not_copy removal loop of Handler.copy_data_attr_to_other:
set.remove raises KeyError when the item is absent, and this loop is not
wrapped in try/except. -/
def remove_items (s : List AttrName) : List AttrName → Except CopyErr (List AttrName)
  | [] => .ok s
  | item :: rest =>
      if item ∈ s then remove_items (s.erase item) rest
      else .error .keyError

/-- The attribute-selection phase of Handler.copy_data_attr_to_other:
from an explicit copy_only list, deduplicate it into a set; otherwise take
the public attribute names of the record. Remove each do_not_copy item,
raising KeyError when absent. Then silently discard the identity and
back-reference names id and handler (their removal is wrapped in
try/except, so absence is ignored). -/
def copy_attr_selection (attrs : List AttrName) (copy_only : Option (List AttrName))
    (do_not_copy : Option (List AttrName)) : Except CopyErr (List AttrName) := do
  let to_copy := match copy_only with
    | none => (attrs.filter is_public).dedup
    | some l => l.dedup
  let to_copy ← match do_not_copy with
    | none => Except.ok to_copy
    | some l => remove_items to_copy l
  Except.ok ((to_copy.erase AttrName.id).erase AttrName.handler)

/-- The copying loop of Handler.copy_data_attr_to_other: read each selected
attribute from the self record (AttributeError when missing) and set it on
the other record. -/
def set_attr_values (selfAttrs : List (AttrName × Int)) (other : List (AttrName × Int)) :
    List AttrName → Except CopyErr (List (AttrName × Int))
  | [] => .ok other
  | item :: rest =>
      match selfAttrs.lookup item with
      | none => .error .attributeError
      | some v =>
          set_attr_values selfAttrs ((other.filter (fun p => p.1 ≠ item)) ++ [(item, v)]) rest

/-- Handler.copy_data_attr_to_other on records modelled as association
lists from attribute name to integer value: select the names to copy, then
copy each selected attribute value from self to other. -/
def copy_data_attr_to_other (selfAttrs otherAttrs : List (AttrName × Int))
    (copy_only : Option (List AttrName)) (do_not_copy : Option (List AttrName)) :
    Except CopyErr (List (AttrName × Int)) := do
  let to_copy ← copy_attr_selection (selfAttrs.map Prod.fst) copy_only do_not_copy
  set_attr_values selfAttrs otherAttrs to_copy

/-- An UpDownPair record as mutated by the Up- and DownstreamFeature
handlers: the two feature slots, holding feature ids. Modelled from the
spec for the external ORM class (§3). -/
structure PairRec where
  upstream : Option Nat := none
  downstream : Option Nat := none
deriving DecidableEq, Repr

/-- An UpDownPairHandler object: its bound record plus the stray instance
attributes that UpstreamFeatureHandler.link_to and
DownstreamFeatureHandler.link_to write on the handler object itself
(other.upstream and other.downstream) instead of on the record. -/
structure PairHandler where
  data : PairRec
  upstreamAttr : Option Nat := none
  downstreamAttr : Option Nat := none
deriving DecidableEq, Repr

/-- UpstreamFeatureHandler.link_to applied to an UpDownPairHandler: the
FeatureHandler link raises ValueError (no accepted kind matches), the
except branch runs, and the assignment targets other.upstream, an
attribute of the handler object, leaving other.data untouched. -/
def upstream_feature_link_to (selfFid : Nat) (other : PairHandler) : PairHandler :=
  { other with upstreamAttr := some selfFid }

/-- UpstreamFeatureHandler.de_link applied to an UpDownPairHandler: nulls
the upstream slot of the record (other.data.upstream). -/
def upstream_feature_de_link (_selfFid : Nat) (other : PairHandler) : PairHandler :=
  { other with data := { other.data with upstream := none } }

/-! Concrete configurations used by the claim theorems below. -/

/-- The synthetic four-feature replay of the round-trip scenario:
transcription START, coding START, coding END, transcription END, at
increasing positions on the plus strand of one region. -/
def replay_steps : List Feature :=
  [⟨1, .TRANSCRIBED, .START, 0, true, 0, none⟩,
   ⟨2, .CODING, .START, 10, true, 0, none⟩,
   ⟨3, .CODING, .END, 20, true, 0, none⟩,
   ⟨4, .TRANSCRIBED, .END, 30, true, 0, none⟩]

/-- Replay a feature sequence through the status machine one single-feature
aligned group at a time, starting from the initial (intergenic) status. -/
def status_after (feats : List Feature) : Except StatusErr TranscriptStatus :=
  feats.foldlM (fun s f => update_status s [f]) {}

/-- A handler of feature kind already bound to a record (record id 1). -/
def bound_feature_handler : HandlerSt :=
  { hkind := .feature, data := some { rid := 1, rtype := .feature, handlerSet := true } }

/-- A second feature record, distinct from the bound one. -/
def second_feature_rec : DataRec := { rid := 2, rtype := .feature }

/-- A self record holding values for the id and given_id attributes. -/
def c5_self_rec : List (AttrName × Int) := [(.id, 7), (.given_id, 3)]

/-- A target record holding a value for its id attribute. -/
def c5_other_rec : List (AttrName × Int) := [(.id, 9)]

/-- The strand-aware position key of §4.3: ascending coordinate on the
plus strand, descending on the minus strand, expressed as an integer key
that is monotone in emission order. -/
def aware_key (plus : Bool) (f : Feature) : Int :=
  if plus then pos_cmp_key f else - pos_cmp_key f

/-- Order of two emitted feature groups: every feature of the first group
precedes every feature of the second, either strictly in the strand-aware
position key or, at equal position key, strictly in ascending bearing key
(END, CLOSE_STATUS, OPEN_STATUS, START, POINT). -/
def stacker_group_le (plus : Bool) (g h : List Feature) : Prop :=
  ∀ a ∈ g, ∀ b ∈ h,
    aware_key plus a < aware_key plus b ∨
      (pos_cmp_key a = pos_cmp_key b ∧ bearing_key a.bearing < bearing_key b.bearing)

/-- The group order asserted by the claim: among groups sharing a position
key, higher bearing priority first (START before END). -/
abbrev claimed_priority_order (g h : List Feature) : Prop :=
  ∀ a ∈ g, ∀ b ∈ h, pos_cmp_key a = pos_cmp_key b →
    bearing_key b.bearing < bearing_key a.bearing

/-- A piece with two features tied at position 5 on the plus strand, a
START and an END of the transcribed type, in that collection order. -/
def tied_piece : List Feature :=
  [⟨1, .TRANSCRIBED, .START, 5, true, 0, none⟩,
   ⟨2, .TRANSCRIBED, .END, 5, true, 0, none⟩]

/-- A plus-strand piece with features at distinct positions, listed out of
order, plus a tied pair at position 3. -/
def plus_piece : List Feature :=
  [⟨1, .CODING, .START, 3, true, 0, none⟩,
   ⟨2, .TRANSCRIBED, .START, 1, true, 0, none⟩,
   ⟨3, .CODING, .END, 3, true, 0, none⟩]

/-- The features of plus_piece in emitted (sorted) order: the stable
ascending position sort keeps the two position-3 features in collection
order. -/
def plus_piece_sorted : List Feature :=
  [⟨2, .TRANSCRIBED, .START, 1, true, 0, none⟩,
   ⟨1, .CODING, .START, 3, true, 0, none⟩,
   ⟨3, .CODING, .END, 3, true, 0, none⟩]

/-- The two-piece scenario: piece p1 carries DownstreamFeature f1, piece
p2 carries UpstreamFeature f2, and the transcript owns exactly one
UpDownPair with upstream f2 and downstream f1. -/
def two_piece_pair (p1 p2 f1 f2 pid : Nat) (k : Int) : UpDownPair :=
  ⟨pid, some ⟨f2, [p2]⟩, some ⟨f1, [p1]⟩, k⟩

/-- The link world of the two-piece scenario: the session holds the one
UpstreamFeature and the one DownstreamFeature, the transcript the pieces
p1 and p2 (in that collection order) and the single pair. -/
def two_piece_world (p1 p2 f1 f2 pid : Nat) (k : Int) : LinkWorld :=
  ⟨[⟨f2, [p2]⟩], [⟨f1, [p1]⟩], [p1, p2], [two_piece_pair p1 p2 f1 f2 pid k]⟩

/-- First pair of the ambiguous scenario: upstream feature f2a on piece
p2, downstream feature f1 on piece p1. -/
def ambig_pair_A (p1 p2 f1 f2a pa : Nat) (kA : Int) : UpDownPair :=
  ⟨pa, some ⟨f2a, [p2]⟩, some ⟨f1, [p1]⟩, kA⟩

/-- Second pair of the ambiguous scenario: upstream feature f2b on piece
p3, downstream the same feature f1 on piece p1. -/
def ambig_pair_B (p1 p3 f1 f2b pb : Nat) (kB : Int) : UpDownPair :=
  ⟨pb, some ⟨f2b, [p3]⟩, some ⟨f1, [p1]⟩, kB⟩

/-- The link world of the ambiguous scenario: two UpDownPair records both
reference the DownstreamFeature f1 of piece p1. -/
def ambig_world (p1 p2 p3 f1 f2a f2b pa pb : Nat) (kA kB : Int) : LinkWorld :=
  ⟨[⟨f2a, [p2]⟩, ⟨f2b, [p3]⟩], [⟨f1, [p1]⟩], [p1, p2, p3],
   [ambig_pair_A p1 p2 f1 f2a pa kA, ambig_pair_B p1 p3 f1 f2b pb kB]⟩

/-- A genuinely cyclic two-piece link world: one pair leads from piece 1
to piece 2 and a second pair leads from piece 2 back to piece 1. -/
def cyclic_world : LinkWorld :=
  ⟨[⟨20, [1]⟩, ⟨21, [2]⟩], [⟨10, [1]⟩, ⟨11, [2]⟩], [1, 2],
   [⟨0, some ⟨20, [1]⟩, some ⟨11, [2]⟩, 0⟩,
    ⟨1, some ⟨21, [2]⟩, some ⟨10, [1]⟩, 0⟩]⟩

/-- A piece whose two features share the coordinates region but disagree
on the strand. -/
def mixed_strand_piece : List Feature :=
  [⟨1, .TRANSCRIBED, .START, 0, true, 0, none⟩,
   ⟨2, .TRANSCRIBED, .END, 5, false, 0, none⟩]

/-- A handler of feature kind holding no record yet. -/
def fresh_feature_handler : HandlerSt := { hkind := .feature }

/-- A plain feature record with id 1. -/
def rec_feature1 : DataRec := { rid := 1, rtype := .feature }

/-- An UpstreamFeature record with id 2: an instance of the feature type. -/
def rec_upstream2 : DataRec := { rid := 2, rtype := .upstreamFeature }

/-- An UpDownPair record with id 3: not an instance of the feature type. -/
def rec_pair3 : DataRec := { rid := 3, rtype := .upDownPair }

/-- An UpDownPairHandler whose record already carries an upstream feature
reference (feature id 7) before any link from the tested handler. -/
def prelinked_pair_handler : PairHandler :=
  { data := { upstream := some 7, downstream := none } }

end Helixer

namespace Helixer

/-- Claim C3, counterexample: after the first replay step
(transcription START) the code yields is_5p_utr = true, not false as the
claim states: a transcription start opens the genic, untranslated,
nothing-seen state, which is exactly the 5-prime UTR predicate. -/
theorem claim_C3_counterexample :
    (status_after (replay_steps.take 1)).map TranscriptStatus.is_5p_utr =
      Except.ok true ∧
    ¬ ((status_after (replay_steps.take 1)).map TranscriptStatus.is_5p_utr =
      Except.ok false) := by
  decide

/-- Claim C3, amended: replaying transcription START, coding START,
coding END, transcription END from the intergenic initial state yields
after the successive steps: is_5p_utr = true (not false), is_intergenic =
false, genic = true; then is_coding = true; then is_3p_utr = true; then
is_intergenic = true. -/
theorem claim_C3_amended :
    (status_after (replay_steps.take 1)).map TranscriptStatus.is_5p_utr =
      Except.ok true ∧
    (status_after (replay_steps.take 1)).map TranscriptStatus.is_intergenic =
      Except.ok false ∧
    (status_after (replay_steps.take 1)).map TranscriptStatus.genic =
      Except.ok true ∧
    (status_after (replay_steps.take 2)).map TranscriptStatus.is_coding =
      Except.ok true ∧
    (status_after (replay_steps.take 3)).map TranscriptStatus.is_3p_utr =
      Except.ok true ∧
    (status_after replay_steps).map TranscriptStatus.is_intergenic =
      Except.ok true := by
  decide

/-- Claim C10: sorted_features on an empty feature collection does not
return a sequence at all: both consistency assertions pass vacuously and
reading the first sorted feature fails out of bounds. -/
theorem claim_C10_empty_features :
    sorted_features ([] : List Feature) = Except.error StructErr.indexError := by
  rfl

/-- Claim C6, counterexample: a handler of feature kind that already holds
a record accepts a second record of matching kind; add_data does not fail
and the handler is rebound to the new record. -/
theorem claim_C6_counterexample :
    add_data bound_feature_handler second_feature_rec =
      Except.ok
        ({ hkind := .feature, data := some { rid := 2, rtype := .feature, handlerSet := true } },
         { rid := 2, rtype := .feature, handlerSet := true }) ∧
    add_data bound_feature_handler second_feature_rec ≠
      Except.error BindErr.assertionFailed := by
  decide

/-- Claim C6, amended: add_data fails exactly when the record kind is not
an instance of the declared data type; no check involves previously held
data, so a handler already holding a record silently rebinds to a new
matching record. -/
theorem claim_C6_amended (h : HandlerSt) (d1 d2 d3 : DataRec)
    (h2 : isinst d2.rtype h.hkind = true) (h3 : isinst d3.rtype h.hkind = false) :
    add_data { h with data := some d1 } d2 =
      Except.ok ({ h with data := some { d2 with handlerSet := true } },
        { d2 with handlerSet := true }) ∧
    add_data h d3 = Except.error BindErr.assertionFailed := by
  constructor
  · simp [add_data, h2]
  · simp [add_data, h3]

/-- Claim C6 witness: a feature handler bound to record 1 rebinds to an
UpstreamFeature record (an instance of its feature data type), while an
UpDownPair record is rejected. -/
theorem claim_C6_witness :
    isinst rec_upstream2.rtype fresh_feature_handler.hkind = true ∧
    isinst rec_pair3.rtype fresh_feature_handler.hkind = false ∧
    (add_data { fresh_feature_handler with data := some rec_feature1 } rec_upstream2 =
        Except.ok ({ fresh_feature_handler with
            data := some { rec_upstream2 with handlerSet := true } },
          { rec_upstream2 with handlerSet := true }) ∧
      add_data fresh_feature_handler rec_pair3 = Except.error BindErr.assertionFailed) :=
  ⟨by decide, by decide,
    claim_C6_amended fresh_feature_handler rec_feature1 rec_upstream2 rec_pair3
      (by decide) (by decide)⟩

/-- Claim C5, counterexample: a copy whose explicit include list names the
identity field id completes without any error; the name is silently
dropped from the selection, nothing is copied, and the target record keeps
its own id value. -/
theorem claim_C5_counterexample :
    copy_data_attr_to_other c5_self_rec c5_other_rec (some [.id]) none =
      Except.ok c5_other_rec ∧
    copy_data_attr_to_other c5_self_rec c5_other_rec (some [.id]) none ≠
      Except.error CopyErr.keyError ∧
    copy_data_attr_to_other c5_self_rec c5_other_rec (some [.id]) none ≠
      Except.error CopyErr.attributeError := by
  decide

/-- Claim C5, amended: an explicit include list naming id or handler never
makes the attribute selection fail; both names are silently removed from
the selected set, so they are never copied. -/
theorem claim_C5_amended :
    ∀ (attrs co : List AttrName), ∃ r,
      copy_attr_selection attrs (some co) none = Except.ok r ∧
      AttrName.id ∉ r ∧ AttrName.handler ∉ r := by
  intro attrs co
  refine ⟨(co.dedup.erase AttrName.id).erase AttrName.handler, rfl, ?_, ?_⟩
  · intro hmem
    have hnd : (co.dedup.erase AttrName.id).Nodup := co.nodup_dedup.erase _
    have := (hnd.mem_erase_iff).mp hmem
    have hid := ((co.nodup_dedup).mem_erase_iff).mp this.2
    exact hid.1 rfl
  · intro hmem
    have hnd : (co.dedup.erase AttrName.id).Nodup := co.nodup_dedup.erase _
    have := (hnd.mem_erase_iff).mp hmem
    exact this.1 rfl

/-- Claim C4: evaluation at the failing input. Linking an UpstreamFeature
handler (feature id 3) to a pair handler whose record already references
upstream feature 7 leaves the record untouched (the assignment lands on
the handler object), and the following de_link nulls the record upstream
slot, so link then de_link moves the record from upstream 7 to upstream
none instead of restoring it. -/
theorem claim_C4_bug_eval :
    (upstream_feature_link_to 3 prelinked_pair_handler).data =
      prelinked_pair_handler.data ∧
    upstream_feature_de_link 3 (upstream_feature_link_to 3 prelinked_pair_handler) =
      { data := { upstream := none, downstream := none },
        upstreamAttr := some 3, downstreamAttr := none } ∧
    (upstream_feature_de_link 3
        (upstream_feature_link_to 3 prelinked_pair_handler)).data.upstream ≠
      prelinked_pair_handler.data.upstream := by
  decide

end Helixer

namespace Helixer

/-- Claim C9: a piece whose features disagree on strand or on coordinates
region makes sorted_features fail on one of its two structural consistency
assertions instead of returning a sorted list. -/
theorem claim_C9_mixed_strand (fs : List Feature)
    (hmix : ∃ a ∈ fs, ∃ b ∈ fs,
      a.is_plus_strand ≠ b.is_plus_strand ∨ a.coordinates ≠ b.coordinates) :
    sorted_features fs = Except.error StructErr.coordinatesAssert ∨
      sorted_features fs = Except.error StructErr.strandAssert := by
  match fs, hmix with
  | [], ⟨a, ha, _⟩ => exact absurd ha (List.not_mem_nil a)
  | f0 :: rest, hmix =>
    by_cases hc : (((f0 :: rest).all fun f => f.coordinates == f0.coordinates) = true)
    · by_cases hs : (((f0 :: rest).all fun f => f.is_plus_strand == f0.is_plus_strand) = true)
      · exfalso
        obtain ⟨a, ha, b, hb, hab⟩ := hmix
        have hca := (List.all_eq_true.mp hc) a ha
        have hcb := (List.all_eq_true.mp hc) b hb
        have hsa := (List.all_eq_true.mp hs) a ha
        have hsb := (List.all_eq_true.mp hs) b hb
        simp only [beq_iff_eq] at hca hcb hsa hsb
        rcases hab with hstr | hcoord
        · exact hstr (hsa.trans hsb.symm)
        · exact hcoord (hca.trans hcb.symm)
      · right
        simp [sorted_features, hc, hs]
    · left
      simp [sorted_features, hc]

/-- Claim C9 witness: a two-feature piece on one region mixing the plus
and minus strands is rejected by sorted_features. -/
theorem claim_C9_witness :
    (∃ a ∈ mixed_strand_piece, ∃ b ∈ mixed_strand_piece,
      a.is_plus_strand ≠ b.is_plus_strand ∨ a.coordinates ≠ b.coordinates) ∧
    (sorted_features mixed_strand_piece = Except.error StructErr.coordinatesAssert ∨
      sorted_features mixed_strand_piece = Except.error StructErr.strandAssert) :=
  ⟨by decide, claim_C9_mixed_strand mixed_strand_piece (by decide)⟩

end Helixer

namespace Helixer

/-- Claim C1, counterexample: in the concrete two-piece scenario (pieces 1
and 2, DownstreamFeature 10 on piece 1, UpstreamFeature 20 on piece 2, one
pair upstream 20 and downstream 10), get_downstream_link on piece 1
returns none, not the pair, and sort_pieces returns [2, 1], not [1, 2]:
the pair is found from the piece carrying its upstream feature, and the
upstream extension prepends piece 2. -/
theorem claim_C1_counterexample :
    get_downstream_link (two_piece_world 1 2 10 20 0 0) 1 = Except.ok none ∧
    sort_pieces (two_piece_world 1 2 10 20 0 0) = Except.ok [2, 1] ∧
    ¬ (get_downstream_link (two_piece_world 1 2 10 20 0 0) 1 =
        Except.ok (some (two_piece_pair 1 2 10 20 0 0)) ∧
      sort_pieces (two_piece_world 1 2 10 20 0 0) = Except.ok [1, 2]) := by
  decide

/-- Claim C1, amended: in the two-piece scenario the pair hangs off piece
p2, the one carrying its upstream feature: get_downstream_link on p1
returns none, get_downstream_link on p2 (and get_upstream_link on p1)
return the pair, and sort_pieces returns [p2, p1], placing the piece with
the upstream feature first. -/
theorem claim_C1_amended (p1 p2 f1 f2 pid : Nat) (k : Int) (hne : p1 ≠ p2) :
    get_downstream_link (two_piece_world p1 p2 f1 f2 pid k) p1 = Except.ok none ∧
    get_downstream_link (two_piece_world p1 p2 f1 f2 pid k) p2 =
      Except.ok (some (two_piece_pair p1 p2 f1 f2 pid k)) ∧
    get_upstream_link (two_piece_world p1 p2 f1 f2 pid k) p1 =
      Except.ok (some (two_piece_pair p1 p2 f1 f2 pid k)) ∧
    sort_pieces (two_piece_world p1 p2 f1 f2 pid k) = Except.ok [p2, p1] := by
  have hne2 : p2 ≠ p1 := hne.symm
  refine ⟨?_, ?_, ?_, ?_⟩ <;>
    simp [two_piece_world, two_piece_pair, get_downstream_link, get_upstream_link,
      find_matching_links, links_list2link, stack_matches, stack_go,
      get_one_piece_from_stream, sort_pieces, extend_to_end, extend_step,
      extend_by_one, List.filter, List.flatMap, hne, hne2, Except.bind]

/-- Claim C1 witness: the amended behavior at the concrete two-piece
scenario with pieces 1 and 2. -/
theorem claim_C1_witness :
    (1 : Nat) ≠ 2 ∧
    (get_downstream_link (two_piece_world 1 2 10 20 0 0) 1 = Except.ok none ∧
      get_downstream_link (two_piece_world 1 2 10 20 0 0) 2 =
        Except.ok (some (two_piece_pair 1 2 10 20 0 0)) ∧
      get_upstream_link (two_piece_world 1 2 10 20 0 0) 1 =
        Except.ok (some (two_piece_pair 1 2 10 20 0 0)) ∧
      sort_pieces (two_piece_world 1 2 10 20 0 0) = Except.ok [2, 1]) :=
  ⟨by decide, claim_C1_amended 1 2 10 20 0 0 (by decide)⟩

end Helixer

namespace Helixer

/-- Claim C7, counterexample: with two UpDownPair records (distinct
position keys) both referencing the DownstreamFeature of piece 1,
get_downstream_link on piece 1 does not raise; it returns none, because it
resolves pairs through the UpstreamFeature records of the piece, and piece
1 carries none. -/
theorem claim_C7_counterexample :
    get_downstream_link (ambig_world 1 2 3 10 20 21 0 1 0 1) 1 = Except.ok none ∧
    get_downstream_link (ambig_world 1 2 3 10 20 21 0 1 0 1) 1 ≠
      Except.error LinkErr.indecipherableLinkage := by
  decide

/-- Claim C7, amended: get_downstream_link resolves pairs through the
UpstreamFeature records of the piece: with no matching pair it returns
none, with exactly one it returns that pair, and it is get_upstream_link
on piece p1 that raises IndecipherableLinkageError when two pairs of
distinct position keys both reference the DownstreamFeature of p1, while
get_downstream_link on p1 returns none. -/
theorem claim_C7_amended (p1 p2 p3 f1 f2a f2b pa pb : Nat) (kA kB : Int)
    (h12 : p1 ≠ p2) (h13 : p1 ≠ p3) (h23 : p2 ≠ p3) (hk : kA ≠ kB) :
    get_downstream_link (ambig_world p1 p2 p3 f1 f2a f2b pa pb kA kB) p1 =
      Except.ok none ∧
    get_upstream_link (ambig_world p1 p2 p3 f1 f2a f2b pa pb kA kB) p1 =
      Except.error LinkErr.indecipherableLinkage ∧
    get_downstream_link (ambig_world p1 p2 p3 f1 f2a f2b pa pb kA kB) p2 =
      Except.ok (some (ambig_pair_A p1 p2 f1 f2a pa kA)) := by
  have h21 : p2 ≠ p1 := h12.symm
  have h31 : p3 ≠ p1 := h13.symm
  have h32 : p3 ≠ p2 := h23.symm
  have hk2 : kB ≠ kA := hk.symm
  refine ⟨?_, ?_, ?_⟩ <;>
    simp [ambig_world, ambig_pair_A, ambig_pair_B, get_downstream_link,
      get_upstream_link, find_matching_links, links_list2link, stack_matches,
      stack_go, List.filter, List.flatMap, beq_eq_decide, UDFeature.mk.injEq,
      h12, h13, h23, h21, h31, h32, hk, hk2]

/-- Claim C7 witness: the amended behavior at the concrete ambiguous
scenario (pieces 1, 2, 3, pairs with position keys 0 and 1). -/
theorem claim_C7_witness :
    ((1 : Nat) ≠ 2 ∧ (1 : Nat) ≠ 3 ∧ (2 : Nat) ≠ 3 ∧ (0 : Int) ≠ 1) ∧
    (get_downstream_link (ambig_world 1 2 3 10 20 21 0 1 0 1) 1 = Except.ok none ∧
      get_upstream_link (ambig_world 1 2 3 10 20 21 0 1 0 1) 1 =
        Except.error LinkErr.indecipherableLinkage ∧
      get_downstream_link (ambig_world 1 2 3 10 20 21 0 1 0 1) 2 =
        Except.ok (some (ambig_pair_A 1 2 10 20 0 0))) :=
  ⟨⟨by decide, by decide, by decide, by decide⟩,
    claim_C7_amended 1 2 3 10 20 21 0 1 0 1
      (by decide) (by decide) (by decide) (by decide)⟩

/-- Claim C8: whenever the candidate piece resolved from the next link is
already a member of the ordered sequence, the extension step raises
IndecipherableLinkageError, and on the concrete cyclic two-piece link
world sort_pieces fails with that error instead of yielding an ordering. -/
theorem claim_C8_cycle_detected (w : LinkWorld) (downstream : Bool)
    (ordered : List Nat) (latest : Nat) (pr : UpDownPair) (stream : UDFeature)
    (np : Nat)
    (h1 : (if downstream then ordered.getLast? else ordered.head?) = some latest)
    (h2 : (if downstream then get_downstream_link w latest
      else get_upstream_link w latest) = Except.ok (some pr))
    (h3 : (if downstream then pr.downstream else pr.upstream) = some stream)
    (h4 : get_one_piece_from_stream w stream = Except.ok np)
    (h5 : np ∈ ordered) :
    extend_step w downstream ordered = Except.error LinkErr.indecipherableLinkage ∧
    sort_pieces cyclic_world = Except.error LinkErr.indecipherableLinkage := by
  refine ⟨?_, by decide⟩
  simp only [extend_step, h1, h2, h3, h4]
  simp [h5]

/-- Claim C8 witness: in the two-piece world whose single pair leads from
piece 2 back to piece 1, the downstream extension step from the ordered
sequence [1, 2] resolves candidate piece 1, already a member, and raises. -/
theorem claim_C8_witness :
    ((if true then [1, 2].getLast? else [1, 2].head?) = some 2 ∧
      (if true then get_downstream_link cyclic_world 2
        else get_upstream_link cyclic_world 2) =
        Except.ok (some ⟨1, some ⟨21, [2]⟩, some ⟨10, [1]⟩, 0⟩) ∧
      (if true then (⟨1, some ⟨21, [2]⟩, some ⟨10, [1]⟩, (0 : Int)⟩ : UpDownPair).downstream
        else (⟨1, some ⟨21, [2]⟩, some ⟨10, [1]⟩, (0 : Int)⟩ : UpDownPair).upstream) =
        some ⟨10, [1]⟩ ∧
      get_one_piece_from_stream cyclic_world ⟨10, [1]⟩ = Except.ok 1 ∧
      1 ∈ [1, 2]) ∧
    (extend_step cyclic_world true [1, 2] =
        Except.error LinkErr.indecipherableLinkage ∧
      sort_pieces cyclic_world = Except.error LinkErr.indecipherableLinkage) :=
  ⟨⟨by decide, by decide, by decide, by decide, by decide⟩,
    claim_C8_cycle_detected cyclic_world true [1, 2] 2
      ⟨1, some ⟨21, [2]⟩, some ⟨10, [1]⟩, 0⟩ ⟨10, [1]⟩ 1
      (by decide) (by decide) (by decide) (by decide) (by decide)⟩

end Helixer

namespace Helixer

/-- Invariant of the stacking loop over a key-sorted input: with the
accumulated group constant at the key of the last consumed element and the
remaining input ascending from it, every produced group draws its elements
from the accumulator or the remaining input at keys at least the current
one, every group is constant in the key, and distinct groups are strictly
ascending in the key. -/
theorem stack_go_props {α β : Type} [LinearOrder β] (κ : α → β)
    (matchFn : α → α → Bool) (hm : ∀ a b, matchFn a b = true ↔ κ a = κ b)
    (l : List α) :
    ∀ (prev : α) (current : List α),
      (∀ a ∈ current, κ a = κ prev) →
      List.Pairwise (fun a b => κ a ≤ κ b) (prev :: l) →
      (∀ g ∈ stack_go matchFn prev current l, ∀ a ∈ g,
          (a ∈ current ∨ a ∈ l) ∧ κ prev ≤ κ a) ∧
      (∀ g ∈ stack_go matchFn prev current l, ∀ a ∈ g, ∀ b ∈ g, κ a = κ b) ∧
      List.Pairwise (fun g h => ∀ a ∈ g, ∀ b ∈ h, κ a < κ b)
        (stack_go matchFn prev current l) := by
  induction l with
  | nil =>
      intro prev current hcur _
      refine ⟨?_, ?_, ?_⟩
      · intro g hg a ha
        simp only [stack_go, List.mem_singleton] at hg
        subst hg
        exact ⟨Or.inl ha, le_of_eq (hcur a ha).symm⟩
      · intro g hg a ha b hb
        simp only [stack_go, List.mem_singleton] at hg
        subst hg
        exact (hcur a ha).trans (hcur b hb).symm
      · simp [stack_go]
  | cons x xs ih =>
      intro prev current hcur hsort
      have hpx : κ prev ≤ κ x :=
        (List.pairwise_cons.mp hsort).1 x (List.mem_cons_self x xs)
      have hsort2 : List.Pairwise (fun a b => κ a ≤ κ b) (x :: xs) :=
        (List.pairwise_cons.mp hsort).2
      by_cases hmx : matchFn x prev = true
      · have hxk : κ x = κ prev := (hm x prev).mp hmx
        have hcur2 : ∀ a ∈ current ++ [x], κ a = κ x := by
          intro a ha
          rcases List.mem_append.mp ha with h | h
          · exact (hcur a h).trans hxk.symm
          · rcases List.mem_singleton.mp h with rfl
            rfl
        obtain ⟨M, C, P⟩ := ih x (current ++ [x]) hcur2 hsort2
        have hred : stack_go matchFn prev current (x :: xs) =
            stack_go matchFn x (current ++ [x]) xs := by
          simp [stack_go, hmx]
        rw [hred]
        refine ⟨?_, C, P⟩
        intro g hg a ha
        obtain ⟨hmem, hle⟩ := M g hg a ha
        refine ⟨?_, ?_⟩
        · rcases hmem with h | h
          · rcases List.mem_append.mp h with h | h
            · exact Or.inl h
            · exact Or.inr (List.mem_cons.mpr (Or.inl (List.mem_singleton.mp h)))
          · exact Or.inr (List.mem_cons.mpr (Or.inr h))
        · rw [← hxk]
          exact hle
      · have hxk : κ x ≠ κ prev := fun h => hmx ((hm x prev).mpr h)
        have hlt : κ prev < κ x := lt_of_le_of_ne hpx (fun h => hxk h.symm)
        have hcur2 : ∀ a ∈ [x], κ a = κ x := by
          intro a ha
          rcases List.mem_singleton.mp ha with rfl
          rfl
        obtain ⟨M, C, P⟩ := ih x [x] hcur2 hsort2
        have hred : stack_go matchFn prev current (x :: xs) =
            current :: stack_go matchFn x [x] xs := by
          simp [stack_go, hmx]
        rw [hred]
        refine ⟨?_, ?_, ?_⟩
        · intro g hg a ha
          rcases List.mem_cons.mp hg with rfl | hg
          · exact ⟨Or.inl ha, le_of_eq (hcur a ha).symm⟩
          · obtain ⟨hmem, hle⟩ := M g hg a ha
            refine ⟨?_, le_of_lt (lt_of_lt_of_le hlt hle)⟩
            rcases hmem with h | h
            · exact Or.inr (List.mem_cons.mpr (Or.inl (List.mem_singleton.mp h)))
            · exact Or.inr (List.mem_cons.mpr (Or.inr h))
        · intro g hg a ha b hb
          rcases List.mem_cons.mp hg with rfl | hg
          · exact (hcur a ha).trans (hcur b hb).symm
          · exact C g hg a ha b hb
        · refine List.pairwise_cons.mpr ⟨?_, P⟩
          intro g hg a ha b hb
          have hb2 := (M g hg b hb).2
          calc κ a = κ prev := hcur a ha
            _ < κ x := hlt
            _ ≤ κ b := hb2

/-- Stacking a key-sorted list by key equality produces groups of elements
of the input, each constant in the key, strictly ascending across groups. -/
theorem stack_matches_props {α β : Type} [LinearOrder β] (κ : α → β)
    (matchFn : α → α → Bool) (hm : ∀ a b, matchFn a b = true ↔ κ a = κ b)
    (l : List α) (hsort : List.Pairwise (fun a b => κ a ≤ κ b) l) :
    (∀ g ∈ stack_matches matchFn l, ∀ a ∈ g, a ∈ l) ∧
    (∀ g ∈ stack_matches matchFn l, ∀ a ∈ g, ∀ b ∈ g, κ a = κ b) ∧
    List.Pairwise (fun g h => ∀ a ∈ g, ∀ b ∈ h, κ a < κ b)
      (stack_matches matchFn l) := by
  cases l with
  | nil => simp [stack_matches]
  | cons x xs =>
      have hcur : ∀ a ∈ [x], κ a = κ x := by
        intro a ha
        rcases List.mem_singleton.mp ha with rfl
        rfl
      obtain ⟨M, C, P⟩ := stack_go_props κ matchFn hm xs x [x] hcur hsort
      rw [show stack_matches matchFn (x :: xs) = stack_go matchFn x [x] xs from rfl]
      refine ⟨?_, C, P⟩
      intro g hg a ha
      rcases (M g hg a ha).1 with h | h
      · exact List.mem_cons.mpr (Or.inl (List.mem_singleton.mp h))
      · exact List.mem_cons.mpr (Or.inr h)

end Helixer

namespace Helixer

/-- A successful sorted_features call returns a permutation of the piece
features that is non-decreasing in the strand-aware position key of the
shared strand. -/
theorem sorted_features_ok_spec (fs out : List Feature) (plus : Bool)
    (hstrand : ∀ f ∈ fs, f.is_plus_strand = plus)
    (h : sorted_features fs = Except.ok out) :
    (∀ a ∈ out, a ∈ fs) ∧
    List.Pairwise (fun a b => aware_key plus a ≤ aware_key plus b) out := by
  haveI : IsTotal Feature (fun a b => pos_cmp_key a ≤ pos_cmp_key b) :=
    ⟨fun a b => Int.le_total _ _⟩
  haveI : IsTrans Feature (fun a b => pos_cmp_key a ≤ pos_cmp_key b) :=
    ⟨fun _ _ _ hab hbc => le_trans hab hbc⟩
  cases fs with
  | nil => exact absurd h (by simp [sorted_features])
  | cons f0 rest =>
      by_cases hc : ((f0 :: rest).all fun f => f.coordinates == f0.coordinates) = true
      · by_cases hs : ((f0 :: rest).all fun f => f.is_plus_strand == f0.is_plus_strand) = true
        · have hsp : List.Pairwise (fun a b => pos_cmp_key a ≤ pos_cmp_key b)
              ((f0 :: rest).insertionSort (fun a b => pos_cmp_key a ≤ pos_cmp_key b)) :=
            List.sorted_insertionSort _ _
          have hmemS : ∀ a ∈ (f0 :: rest).insertionSort
              (fun a b => pos_cmp_key a ≤ pos_cmp_key b), a ∈ f0 :: rest := by
            intro a ha
            exact (List.mem_insertionSort _).mp ha
          cases hq : (f0 :: rest).insertionSort (fun a b => pos_cmp_key a ≤ pos_cmp_key b) with
          | nil =>
              have hrun : sorted_features (f0 :: rest) =
                  Except.error StructErr.indexError := by
                simp only [sorted_features]
                rw [if_neg (by simp [hc]), if_neg (by simp [hs]), hq]
              rw [hrun] at h
              exact absurd h (by simp)
          | cons g0 tail =>
              rw [hq] at hsp hmemS
              have hrun : sorted_features (f0 :: rest) =
                  if ¬ g0.is_plus_strand = true then Except.ok ((g0 :: tail).reverse)
                  else Except.ok (g0 :: tail) := by
                simp only [sorted_features]
                rw [if_neg (by simp [hc]), if_neg (by simp [hs]), hq]
              rw [hrun] at h
              have hg0 : g0.is_plus_strand = plus :=
                hstrand g0 (hmemS g0 (List.mem_cons_self g0 tail))
              by_cases hg : g0.is_plus_strand = true
              · rw [hg] at hg0
                subst hg0
                rw [if_neg (by simp [hg])] at h
                have hout : out = g0 :: tail := by
                  cases h
                  rfl
                subst hout
                refine ⟨hmemS, ?_⟩
                refine hsp.imp ?_
                intro a b hab
                simpa [aware_key] using hab
              · have hgf : g0.is_plus_strand = false := by
                  cases hb : g0.is_plus_strand
                  · rfl
                  · exact absurd hb hg
                rw [hgf] at hg0
                subst hg0
                rw [if_pos (by simp [hgf])] at h
                have hout : out = (g0 :: tail).reverse := by
                  cases h
                  rfl
                subst hout
                refine ⟨?_, ?_⟩
                · intro a ha
                  exact hmemS a (List.mem_reverse.mp ha)
                · refine List.pairwise_reverse.mpr ?_
                  refine hsp.imp ?_
                  intro a b hab
                  simp only [aware_key, if_neg, Bool.false_eq_true, if_false]
                  exact neg_le_neg hab
        · simp [sorted_features, hc, hs] at h
      · simp [sorted_features, hc] at h

end Helixer

namespace Helixer

/-- Every element of a group produced by the stacking loop comes from the
accumulated group or from the remaining input. -/
theorem stack_go_mem {α : Type} (matchFn : α → α → Bool) (l : List α) :
    ∀ (prev : α) (current : List α),
      ∀ g ∈ stack_go matchFn prev current l, ∀ a ∈ g, a ∈ current ∨ a ∈ l := by
  induction l with
  | nil =>
      intro prev current g hg a ha
      simp only [stack_go, List.mem_singleton] at hg
      subst hg
      exact Or.inl ha
  | cons x xs ih =>
      intro prev current g hg a ha
      by_cases hmx : matchFn x prev = true
      · rw [show stack_go matchFn prev current (x :: xs) =
            stack_go matchFn x (current ++ [x]) xs by simp [stack_go, hmx]] at hg
        rcases ih x (current ++ [x]) g hg a ha with h | h
        · rcases List.mem_append.mp h with h | h
          · exact Or.inl h
          · exact Or.inr (List.mem_cons.mpr (Or.inl (List.mem_singleton.mp h)))
        · exact Or.inr (List.mem_cons.mpr (Or.inr h))
      · rw [show stack_go matchFn prev current (x :: xs) =
            current :: stack_go matchFn x [x] xs by simp [stack_go, hmx]] at hg
        rcases List.mem_cons.mp hg with rfl | hg
        · exact Or.inl ha
        · rcases ih x [x] g hg a ha with h | h
          · exact Or.inr (List.mem_cons.mpr (Or.inl (List.mem_singleton.mp h)))
          · exact Or.inr (List.mem_cons.mpr (Or.inr h))

/-- Every element of a group produced by stack_matches is an element of
the input list. -/
theorem stack_matches_mem {α : Type} (matchFn : α → α → Bool) (l : List α) :
    ∀ g ∈ stack_matches matchFn l, ∀ a ∈ g, a ∈ l := by
  cases l with
  | nil => simp [stack_matches]
  | cons x xs =>
      intro g hg a ha
      rcases stack_go_mem matchFn xs x [x] g hg a ha with h | h
      · exact List.mem_cons.mpr (Or.inl (List.mem_singleton.mp h))
      · exact List.mem_cons.mpr (Or.inr h)

/-- Claim C2, amended: over any piece accepted by sorted_features (all
features on one strand), the groups emitted by full_stack_matches are
ordered group-by-group: strictly ascending in the strand-aware position
key, and at equal position key strictly ascending in the bearing key,
that is END and CLOSE_STATUS groups come before OPEN_STATUS and START
groups (with POINT last), the opposite of the priority order asserted by
the claim. -/
theorem claim_C2_amended (fs out : List Feature) (plus : Bool)
    (hstrand : ∀ f ∈ fs, f.is_plus_strand = plus)
    (h : sorted_features fs = Except.ok out) :
    List.Pairwise (stacker_group_le plus) (full_stack_matches out) := by
  obtain ⟨hmem, hsort⟩ := sorted_features_ok_spec fs out plus hstrand h
  have hm1 : ∀ a b : Feature,
      positional_match a b = true ↔ aware_key plus a = aware_key plus b := by
    intro a b
    cases plus <;> simp [positional_match, aware_key, beq_iff_eq, neg_inj]
  have hkeyinj : ∀ x y : Bearing, bearing_key x = bearing_key y ↔ x = y := by
    intro x y
    cases x <;> cases y <;> simp [bearing_key]
  have hm2 : ∀ a b : Feature, bearing_match a b = true ↔
      (fun f : Feature => bearing_key f.bearing) a =
        (fun f : Feature => bearing_key f.bearing) b := by
    intro a b
    simp [bearing_match, beq_iff_eq, hkeyinj]
  have haware_eq : ∀ a b : Feature,
      aware_key plus a = aware_key plus b ↔ pos_cmp_key a = pos_cmp_key b := by
    intro a b
    cases plus <;> simp [aware_key, neg_inj]
  obtain ⟨M1, C1, P1⟩ :=
    stack_matches_props (aware_key plus) positional_match hm1 out hsort
  haveI : IsTotal Feature (fun a b => bearing_key a.bearing ≤ bearing_key b.bearing) :=
    ⟨fun a b => Nat.le_total _ _⟩
  haveI : IsTrans Feature (fun a b => bearing_key a.bearing ≤ bearing_key b.bearing) :=
    ⟨fun _ _ _ hab hbc => le_trans hab hbc⟩
  rw [full_stack_matches, List.flatMap_def]
  refine List.pairwise_flatten.mpr ⟨?_, ?_⟩
  · intro gl hgl
    obtain ⟨stk, hstk, rfl⟩ := List.mem_map.mp hgl
    have hbs : List.Pairwise
        (fun a b => (fun f : Feature => bearing_key f.bearing) a ≤
          (fun f : Feature => bearing_key f.bearing) b) (sort_by_bearing stk) := by
      simpa [sort_by_bearing] using
        List.sorted_insertionSort
          (fun a b : Feature => bearing_key a.bearing ≤ bearing_key b.bearing) stk
    obtain ⟨M2, C2, P2⟩ :=
      stack_matches_props (fun f : Feature => bearing_key f.bearing) bearing_match
        hm2 (sort_by_bearing stk) hbs
    refine P2.imp_of_mem ?_
    intro g g2 hg hg2 hrel a ha b hb
    right
    refine ⟨?_, hrel a ha b hb⟩
    have ha2 : a ∈ stk := by
      have := M2 g hg a ha
      simpa [sort_by_bearing, List.mem_insertionSort] using this
    have hb2 : b ∈ stk := by
      have := M2 g2 hg2 b hb
      simpa [sort_by_bearing, List.mem_insertionSort] using this
    exact (haware_eq a b).mp (C1 stk hstk a ha2 b hb2)
  · refine List.pairwise_map.mpr ?_
    refine P1.imp_of_mem ?_
    intro s t hs ht hrel g hg g2 hg2 a ha b hb
    left
    have ha2 : a ∈ s := by
      have := stack_matches_mem bearing_match (sort_by_bearing s) g hg a ha
      simpa [sort_by_bearing, List.mem_insertionSort] using this
    have hb2 : b ∈ t := by
      have := stack_matches_mem bearing_match (sort_by_bearing t) g2 hg2 b hb
      simpa [sort_by_bearing, List.mem_insertionSort] using this
    exact hrel a ha2 b hb2

/-- Claim C2, counterexample: a plus-strand piece with a tied START and
END at one position is emitted as the END group before the START group;
the priority order asserted by the claim (START before END) fails. -/
theorem claim_C2_counterexample :
    sorted_features tied_piece = Except.ok tied_piece ∧
    full_stack_matches tied_piece =
      [[⟨2, .TRANSCRIBED, .END, 5, true, 0, none⟩],
       [⟨1, .TRANSCRIBED, .START, 5, true, 0, none⟩]] ∧
    ¬ List.Pairwise claimed_priority_order (full_stack_matches tied_piece) := by
  decide

/-- Claim C2 witness: the amended group order at a concrete plus-strand
piece with one isolated position and one tied position. -/
theorem claim_C2_witness :
    ((∀ f ∈ plus_piece, f.is_plus_strand = true) ∧
      sorted_features plus_piece = Except.ok plus_piece_sorted) ∧
    List.Pairwise (stacker_group_le true) (full_stack_matches plus_piece_sorted) :=
  ⟨⟨by decide, by decide⟩,
    claim_C2_amended plus_piece plus_piece_sorted true (by decide) (by decide)⟩

end Helixer
